import Mathlib

/-!
Shallow embedding of the synchronization cache, reminder scheduler and
conflict-aware booking engine of the telegram-assistant-bot repository
(src/services/smartScheduling.js and the scheduler module), together with
proofs of the specified properties.

Conventions of the embedding:
* Instants (luxon `DateTime` values) are rational numbers of minutes.
  Comparisons, `plus {minutes}` and `diff(...,'minutes')` become rational
  arithmetic; `diff(...,'hours').hours` becomes division by 60.
* An ISO date-time string is embedded as the data the code extracts from it:
  whether it contains a time-of-day component (`includes('T')`) and the
  instant `DateTime.fromISO` parses it to; for day-level comparisons
  (`startsWith(todayStr)`, `hasSame(now,'day')`) a calendar-day index is kept.
* `await`-ed collaborator calls (Google Calendar / Tasks, Trello, disk I/O)
  are passed in as `Except Unit _` values; a `.error` value models the call
  throwing, and the embedding routes it exactly where the `try/catch` of the
  source routes an exception.
* Message formatting (`toFormat('HH:mm')`, markdown assembly) is dropped;
  the embedded functions return the selected data instead of format strings.
-/

attribute [local semireducible] Rat.add Rat.sub Rat.mul Rat.inv

namespace TelegramBot

/-- The parse of an ISO date-time string: the instant (minutes) and the
calendar day it lies on (for `startsWith`/`hasSame` day comparisons). -/
structure TimedStamp where
  instant : ℚ
  day : ℤ
deriving DecidableEq, Repr

/-- The `start`/`end` object of a Google Calendar event: either a `dateTime`
(timed event) or a `date` (all-day event), mirroring the optional-field shape
of the API objects the code reads. -/
structure EventTime where
  dateTime : Option TimedStamp
  date : Option ℤ
deriving DecidableEq, Repr

/-- A calendar event as consumed by the scheduler and conflict engine. -/
structure GEvent where
  id : String
  summary : String
  start : EventTime
  stop : EventTime
  hangoutLink : Option String := none
deriving DecidableEq, Repr

/-- A Google Task as consumed by the digests. -/
structure Task where
  id : String
  title : String
deriving DecidableEq, Repr

/-- A Trello card as consumed by the digests. -/
structure Card where
  id : String
  name : String
  listName : Option String
  shortUrl : String
deriving DecidableEq, Repr

/-- The parse-relevant content of a candidate ISO string handed to
`checkConflicts`: whether it `includes('T')` and the instant
`DateTime.fromISO` yields. -/
structure IsoStr where
  hasTimeComponent : Bool
  instant : ℚ
deriving DecidableEq, Repr

/-- `eventData` as passed to `checkConflicts`. -/
structure Candidate where
  summary : String
  start : Option IsoStr
  stop : Option IsoStr
deriving DecidableEq, Repr

/-- One entry of the `conflicts` array built by `checkConflicts`
(`toFormat('HH:mm')` presentation dropped, instants kept). -/
structure ConflictEntry where
  id : String
  summary : String
  startT : ℚ
  endT : ℚ
deriving DecidableEq, Repr

/-- One suggestion built by `generateAlternativeTimes` (the `start`/`end`
`HH:mm` strings and the `startISO`/`endISO` strings all present the two
instants kept here). -/
structure Suggestion where
  startT : ℚ
  endT : ℚ
  label : String
deriving DecidableEq, Repr

/-- Return value of `checkConflicts`. -/
structure ConflictResult where
  hasConflict : Bool
  conflicts : List ConflictEntry
  suggestions : List Suggestion
deriving DecidableEq, Repr

/-- The literal `{ hasConflict: false, conflicts: [], suggestions: [] }`. -/
def emptyResult : ConflictResult :=
  { hasConflict := false, conflicts := [], suggestions := [] }

/-- The inner loop of `generateAlternativeTimes` (smartScheduling.js lines
92-102): does the slot `[newStart, newEnd)` overlap some timed event of the
list?  All-day events (`!event.start.dateTime`) are skipped by `continue`. -/
def slotOverlapsAny (newStart newEnd : ℚ) (events : List GEvent) : Bool :=
  events.any fun ev =>
    match ev.start.dateTime, ev.stop.dateTime with
    | some es, some ee => decide (newStart < ee.instant) && decide (newEnd > es.instant)
    | _, _ => false

/-- The label ternary of `generateAlternativeTimes` (lines 110-114). -/
def altLabel (offset : ℤ) : String :=
  if offset < 0 then toString offset.natAbs ++ " min antes"
  else if offset = 0 then "Horário sugerido"
  else toString offset ++ " min depois"

/-- The fixed probe list `[-30, 30, 60, 90, 120]` (line 84). -/
def altOffsets : List ℤ := [-30, 30, 60, 90, 120]

/-- The `for (const offset of offsets)` loop of `generateAlternativeTimes`
(lines 86-119): accumulates accepted suggestions, breaking once three are
collected. -/
def genAltGo (originalStart duration : ℚ) (events : List GEvent) (now : ℚ) :
    List ℤ → List Suggestion → List Suggestion
  | [], suggestions => suggestions
  | offset :: rest, suggestions =>
    let newStart := originalStart + (offset : ℚ)
    let newEnd := newStart + duration
    let hasConflict := slotOverlapsAny newStart newEnd events
    let suggestions2 :=
      if !hasConflict && decide (newStart > now) then
        suggestions ++ [{ startT := newStart, endT := newEnd, label := altLabel offset }]
      else suggestions
    if 3 ≤ suggestions2.length then suggestions2
    else genAltGo originalStart duration events now rest suggestions2

/-- `generateAlternativeTimes(originalStart, originalEnd, existingEvents)`
(smartScheduling.js lines 79-122); `DateTime.now()` is the `now` parameter,
`duration = originalEnd.diff(originalStart,'minutes').minutes`. -/
def generateAlternativeTimes (originalStart originalEnd : ℚ) (events : List GEvent)
    (now : ℚ) : List Suggestion :=
  genAltGo originalStart (originalEnd - originalStart) events now altOffsets []

/-- Body of the `for (const event of events)` loop of `checkConflicts`
(smartScheduling.js lines 34-50): `continue` past all-day events, otherwise
push a conflict entry when the half-open intervals intersect. -/
def conflictEntryFor (startTime endTime : ℚ) (ev : GEvent) : Option ConflictEntry :=
  match ev.start.dateTime, ev.stop.dateTime with
  | some es, some ee =>
    if decide (startTime < ee.instant) && decide (endTime > es.instant) then
      some { id := ev.id, summary := ev.summary, startT := es.instant, endT := ee.instant }
    else none
  | _, _ => none

/-- `checkConflicts(eventData)` (smartScheduling.js lines 15-74).  The live
`googleService.listEvents(dayStart, dayEnd)` call is the `fetched` parameter;
`.error` models the fetch throwing, in which case control transfers to the
`catch` block, which returns the empty result. -/
def checkConflicts (eventData : Candidate) (fetched : Except Unit (List GEvent))
    (now : ℚ) : ConflictResult :=
  match eventData.start with
  | none => emptyResult
  | some s =>
    if !s.hasTimeComponent then emptyResult
    else
      let startTime := s.instant
      let endTime :=
        match eventData.stop with
        | some e => e.instant
        | none => startTime + 60
      match fetched with
      | .error _ => emptyResult
      | .ok events =>
        let conflicts := events.filterMap (conflictEntryFor startTime endTime)
        if conflicts.isEmpty then emptyResult
        else
          { hasConflict := true, conflicts := conflicts,
            suggestions := generateAlternativeTimes startTime endTime events now }

/-! ## Scheduler module: snapshot cache, refresh, invalidation, load -/

/-- The module-level `memoryCache` object of the scheduler. -/
structure MemoryCache where
  events : List GEvent
  tasks : List Task
  trelloCards : List Card
  lastUpdate : Option ℚ
deriving DecidableEq, Repr

/-- The three read collaborators as seen by one refresh/invalidate call: the
value each `await`-ed call resolves to, `.error` when it throws. -/
structure FetchEnv where
  listEvents : Except Unit (List GEvent)
  listTasks : Except Unit (List Task)
  listAllCards : Except Unit (List Card)
deriving Repr

/-- Is an `Except` value an error (the call threw)? -/
def threw {α : Type} : Except Unit α → Bool
  | .error _ => true
  | .ok _ => false

/-- `refreshDataCache()` (scheduler lines 371-403): awaits `listEvents`,
`listTasks`, `listAllCards` in order and only then assigns all four fields of
`memoryCache`; any throw jumps to the `catch`, which logs and leaves the
cache untouched.  Returns the resulting in-memory cache. -/
def refreshDataCache (cache : MemoryCache) (now : ℚ) (env : FetchEnv) : MemoryCache :=
  match env.listEvents with
  | .error _ => cache
  | .ok events =>
    match env.listTasks with
    | .error _ => cache
    | .ok tasks =>
      match env.listAllCards with
      | .error _ => cache
      | .ok trelloCards =>
        { events := events, tasks := tasks, trelloCards := trelloCards,
          lastUpdate := some now }

/-- The `type` argument of `invalidateCache`. -/
inductive CacheType
  | all
  | events
  | tasks
  | trello
deriving DecidableEq, Repr

/-- Tail of `invalidateCache` after the three domain branches: the
unconditional `memoryCache.lastUpdate = now.toISO()` assignment. -/
def invalidateFinish (cache : MemoryCache) (now : ℚ) : MemoryCache :=
  { cache with lastUpdate := some now }

/-- Third branch of `invalidateCache` (lines 421-423): fetch Trello cards
when `type` is `all` or `trello`; a throw aborts to the `catch`, keeping the
state patched so far and skipping the `lastUpdate` assignment. -/
def invalidateTrelloStep (cache : MemoryCache) (t : CacheType) (now : ℚ)
    (env : FetchEnv) : MemoryCache :=
  if t = CacheType.all ∨ t = CacheType.trello then
    match env.listAllCards with
    | .error _ => cache
    | .ok cs => invalidateFinish { cache with trelloCards := cs } now
  else invalidateFinish cache now

/-- Second branch of `invalidateCache` (lines 417-419): fetch tasks when
`type` is `all` or `tasks`. -/
def invalidateTasksStep (cache : MemoryCache) (t : CacheType) (now : ℚ)
    (env : FetchEnv) : MemoryCache :=
  if t = CacheType.all ∨ t = CacheType.tasks then
    match env.listTasks with
    | .error _ => cache
    | .ok ts => invalidateTrelloStep { cache with tasks := ts } t now env
  else invalidateTrelloStep cache t now env

/-- `invalidateCache(type)` (scheduler lines 406-431): sequentially fetches
and patches the selected domains (events, then tasks, then Trello cards),
then advances `lastUpdate`; a throw in one domain's fetch lands in the
`catch`, so later domains and `lastUpdate` are skipped while the domains
already assigned keep their new values. -/
def invalidateCache (cache : MemoryCache) (t : CacheType) (now : ℚ)
    (env : FetchEnv) : MemoryCache :=
  if t = CacheType.all ∨ t = CacheType.events then
    match env.listEvents with
    | .error _ => cache
    | .ok es => invalidateTasksStep { cache with events := es } t now env
  else invalidateTasksStep cache t now env

/-- The parsed content of `scheduler_cache.json` (the cache persisted by an
older version may lack the `trelloCards` field, hence the `Option`). -/
structure DiskCache where
  events : List GEvent
  tasks : List Task
  trelloCards : Option (List Card)
  lastUpdate : Option ℚ
deriving DecidableEq, Repr

/-- The staleness test of `loadCacheFromDisk` (lines 357-362):
`DateTime.now().diff(lastUpdate,'hours').hours > 2`.  When `lastUpdate` is
`null`, `DateTime.fromISO(null)` is invalid, the diff is `NaN` and the
comparison is false, so no refresh is forced. -/
def staleAfterLoad (lastUpdate : Option ℚ) (now : ℚ) : Bool :=
  match lastUpdate with
  | none => false
  | some lu => decide ((now - lu) / 60 > 2)

/-- `loadCacheFromDisk()` (scheduler lines 343-367): `disk` is `none` when
the cache file does not exist, `some (.error ())` when reading/parsing
throws (caught, cache untouched), and `some (.ok d)` on a successful parse,
in which case `memoryCache` is replaced (defaulting a missing `trelloCards`
to `[]`) and `refreshDataCache` is fired iff the snapshot is stale.  Returns
the in-memory cache and whether the forced refresh was triggered. -/
def loadCacheFromDisk (current : MemoryCache) (disk : Option (Except Unit DiskCache))
    (now : ℚ) : MemoryCache × Bool :=
  match disk with
  | none => (current, false)
  | some (.error _) => (current, false)
  | some (.ok d) =>
    ({ events := d.events, tasks := d.tasks, trelloCards := d.trelloCards.getD [],
       lastUpdate := d.lastUpdate }, staleAfterLoad d.lastUpdate now)

/-! ## Scheduler module: per-minute reminder scan -/

/-- A `sendMessage` reminder emitted by the per-minute monitor. -/
structure Reminder where
  eventId : String
  summary : String
deriving DecidableEq, Repr

/-- Body of the per-minute cron (scheduler lines 620-642) for one event of
the loop: skip all-day events; compute `diffMinutes = start - now`; when it
lies in `[14, 15.5]` and the event id is not in `notifiedEvents`, send the
reminder and add the id. -/
def scanStep (now : ℚ) (acc : List String × List Reminder) (event : GEvent) :
    List String × List Reminder :=
  match event.start.dateTime with
  | none => acc
  | some ts =>
    let diffMinutes := ts.instant - now
    if decide (14 ≤ diffMinutes) && decide (diffMinutes ≤ 31/2)
        && !(acc.1.contains event.id) then
      (event.id :: acc.1, acc.2 ++ [{ eventId := event.id, summary := event.summary }])
    else acc

/-- One tick of the per-minute monitor: the `for (const event of
memoryCache.events)` loop, threading the `notifiedEvents` set and collecting
the reminders sent this tick. -/
def minuteScanTick (events : List GEvent) (notified : List String) (now : ℚ) :
    List String × List Reminder :=
  events.foldl (scanStep now) (notified, [])

/-- One cron firing in a sequence of ticks: run the scan at instant `t` with
the `notifiedEvents` set accumulated so far and append this tick's sends. -/
def ticksStep (events : List GEvent) (acc : List String × List Reminder) (t : ℚ) :
    List String × List Reminder :=
  let r := minuteScanTick events acc.1 t
  (r.1, acc.2 ++ r.2)

/-- A sequence of monitor ticks at the given instants over an unchanged
event cache, accumulating all reminders sent in the process lifetime. -/
def runTicks (events : List GEvent) (notified : List String) (times : List ℚ) :
    List String × List Reminder :=
  times.foldl (ticksStep events) (notified, [])

/-- Number of reminders for a given event id in a reminder list. -/
def remindersFor (msgs : List Reminder) (eid : String) : ℕ :=
  (msgs.filter fun m => m.eventId = eid).length

/-! ## Scheduler module: digest composition -/

/-- The `todaysEvents` filter of the 08:00 cron (lines 468-471):
`e.start.dateTime.startsWith(todayStr) || e.start.date === todayStr`. -/
def todaysEvents (events : List GEvent) (today : ℤ) : List GEvent :=
  events.filter fun e =>
    (match e.start.dateTime with
     | some ts => decide (ts.day = today)
     | none => false) ||
    (match e.start.date with
     | some d => decide (d = today)
     | none => false)

/-- The `remainingEvents` filter of the 14:00 cron (lines 543-552): an
all-day event passes iff its date is today; otherwise a timed event passes
iff its start is strictly after `now`; an event with neither field fails. -/
def remainingEvents (events : List GEvent) (now : ℚ) (today : ℤ) : List GEvent :=
  events.filter fun e =>
    match e.start.date with
    | some d => decide (d = today)
    | none =>
      match e.start.dateTime with
      | some ts => decide (ts.instant > now)
      | none => false

/-- `haystack.includes(needle)` on JavaScript strings: substring
containment, embedded as infix containment of the character lists. -/
def strIncludes (haystack needle : String) : Bool :=
  decide (needle.toList <:+: haystack.toList)

/-- `s.toLowerCase()`: lower-case every character (mapped over the
character list). -/
def strToLower (s : String) : String :=
  ⟨s.data.map Char.toLower⟩

/-- The `todoCards` filter used by both digests (lines 496-502 and 555-561):
`listName` present and its lower-casing contains one of the three markers. -/
def isTodoCard (c : Card) : Bool :=
  match c.listName with
  | none => false
  | some n =>
    strIncludes (strToLower n) "a fazer" || strIncludes (strToLower n) "to do"
      || strIncludes (strToLower n) "todo"

/-- Tasks shown by the morning digest: `memoryCache.tasks.slice(0, 10)`
(line 490). -/
def morningDigestTasks (tasks : List Task) : List Task :=
  tasks.take 10

/-- Cards shown by the morning digest: `todoCards.slice(0, 10)` (line 506). -/
def morningDigestCards (cards : List Card) : List Card :=
  (cards.filter isTodoCard).take 10

/-- Tasks shown by the 14:00 digest: `tasks.slice(0, 5)` (line 579). -/
def afternoonDigestTasks (tasks : List Task) : List Task :=
  tasks.take 5

/-- Cards shown by the 14:00 digest: `todoCards.slice(0, 5)` (line 587). -/
def afternoonDigestCards (cards : List Card) : List Card :=
  (cards.filter isTodoCard).take 5

/-! ## Shared helpers for the theorems -/

/-- A timed calendar event covering `[es, ee)` (calendar day index 0). -/
def timedEvent (id summary : String) (es ee : ℚ) : GEvent :=
  { id := id, summary := summary,
    start := { dateTime := some { instant := es, day := 0 }, date := none },
    stop := { dateTime := some { instant := ee, day := 0 }, date := none },
    hangoutLink := none }

/-- The predicate keeping only timed events. -/
def isTimed (ev : GEvent) : Bool :=
  ev.start.dateTime.isSome

/-- Acceptance test of one probe offset, read off the loop body of
`generateAlternativeTimes`: the shifted slot overlaps no timed event and
starts strictly after `now`. -/
def altAccepted (originalStart duration : ℚ) (events : List GEvent) (now : ℚ)
    (offset : ℤ) : Bool :=
  !slotOverlapsAny (originalStart + (offset : ℚ)) (originalStart + (offset : ℚ) + duration)
      events
    && decide (originalStart + (offset : ℚ) > now)

/-- The alternative-slot search as the spec words it (for the refinement
proof of C8): keep, in probe order, the offsets whose candidate slot is
accepted, take the first three, and emit each as a suggestion whose end is
its start plus the original duration, with the offset's label. -/
def altSearchSpec (originalStart duration : ℚ) (events : List GEvent) (now : ℚ) :
    List Suggestion :=
  ((altOffsets.filter (altAccepted originalStart duration events now)).take 3).map
    fun (o : ℤ) => { startT := originalStart + (o : ℚ),
                     endT := originalStart + (o : ℚ) + duration, label := altLabel o }

/-- The day of the C8 scenario: one event covering the −30 and +30 probes,
one covering the +90 and +120 probes, leaving only the +60 slot free (for a
one-hour candidate at minute 1000 of day 0). -/
def c8Events : List GEvent :=
  [timedEvent "b1" "Busy early" 970 1060, timedEvent "b2" "Busy late" 1120 1200]

/-- 1 while the event id is still unnotified, 0 once it is in the set. -/
def notifFlag (notified : List String) (eid : String) : ℕ :=
  if eid ∈ notified then 0 else 1

/-- The afternoon digest event rule as the spec words it: all-day today, or
a timed event (no `date` field) whose start is strictly after `now`. -/
def afternoonEventSpec (now : ℚ) (today : ℤ) (e : GEvent) : Prop :=
  e.start.date = some today
    ∨ (e.start.date = none
        ∧ ∃ ts, e.start.dateTime = some ts ∧ ts.instant > now)

/-- The to-do markers of the digest card filter. -/
def todoMarkers : List String := ["a fazer", "to do", "todo"]

/-- The card rule as the spec words it: `listName` present and
case-insensitively containing one of the markers. -/
def todoCardSpec (c : Card) : Prop :=
  ∃ n, c.listName = some n ∧ ∃ m ∈ todoMarkers, strIncludes (strToLower n) m = true

/-- Six pending tasks: more than the afternoon cap, fewer than the morning
cap. -/
def sixTasks : List Task :=
  [⟨"1", "t1"⟩, ⟨"2", "t2"⟩, ⟨"3", "t3"⟩, ⟨"4", "t4"⟩, ⟨"5", "t5"⟩, ⟨"6", "t6"⟩]

/-- Six cards, all on a to-do list. -/
def sixCards : List Card :=
  [⟨"1", "c1", some "A Fazer", "u1"⟩, ⟨"2", "c2", some "A Fazer", "u2"⟩,
   ⟨"3", "c3", some "A Fazer", "u3"⟩, ⟨"4", "c4", some "A Fazer", "u4"⟩,
   ⟨"5", "c5", some "A Fazer", "u5"⟩, ⟨"6", "c6", some "A Fazer", "u6"⟩]


end TelegramBot

namespace TelegramBot

/-- C3.  Overlap correctness: with a timed candidate `[s, end)` (`end`
defaulting to `s + 1h` when absent) checked against one timed event
`[es, ee)`, `checkConflicts` reports a conflict exactly when `s < ee` and
`end > es`; a candidate starting exactly at `ee` is never a conflict; and the
inner rejection rule of `generateAlternativeTimes` is the identical half-open
intersection test. -/
theorem overlap_rule_correct :
    (∀ (sum id esum : String) (s es ee endInst : ℚ) (eb : Bool) (now : ℚ),
      ((checkConflicts ⟨sum, some ⟨true, s⟩, some ⟨eb, endInst⟩⟩
        (.ok [timedEvent id esum es ee]) now).hasConflict = true
        ↔ (s < ee ∧ endInst > es)))
  ∧ (∀ (sum id esum : String) (s es ee : ℚ) (now : ℚ),
      ((checkConflicts ⟨sum, some ⟨true, s⟩, none⟩
        (.ok [timedEvent id esum es ee]) now).hasConflict = true
        ↔ (s < ee ∧ s + 60 > es)))
  ∧ (∀ (sum id esum : String) (es ee endInst : ℚ) (eb : Bool) (now : ℚ),
      (checkConflicts ⟨sum, some ⟨true, ee⟩, some ⟨eb, endInst⟩⟩
        (.ok [timedEvent id esum es ee]) now).hasConflict = false)
  ∧ (∀ (id esum : String) (ns ne es ee : ℚ),
      (slotOverlapsAny ns ne [timedEvent id esum es ee] = true ↔ (ns < ee ∧ ne > es))) := by
  refine ⟨?_, ?_, ?_, ?_⟩
  · intro sum id esum s es ee endInst eb now
    by_cases h1 : s < ee <;> by_cases h2 : endInst > es <;>
      simp [checkConflicts, conflictEntryFor, timedEvent, emptyResult, h1, h2]
  · intro sum id esum s es ee now
    by_cases h1 : s < ee <;> by_cases h2 : s + 60 > es <;>
      simp [checkConflicts, conflictEntryFor, timedEvent, emptyResult, h1, h2]
  · intro sum id esum es ee endInst eb now
    simp [checkConflicts, conflictEntryFor, timedEvent, emptyResult]
  · intro id esum ns ne es ee
    by_cases h1 : ns < ee <;> by_cases h2 : ne > es <;>
      simp [slotOverlapsAny, timedEvent, h1, h2]

/-- C4.  The conflict check fails open: when the live `listEvents` fetch
throws, the `catch` swallows the error and `checkConflicts` returns the
no-conflict result, indistinguishable from a genuinely free day. -/
theorem conflict_check_fails_open :
    (∀ (c : Candidate) (now : ℚ),
      checkConflicts c (.error ()) now
        = { hasConflict := false, conflicts := [], suggestions := [] })
  ∧ (∀ (c : Candidate) (now : ℚ),
      checkConflicts c (.error ()) now = checkConflicts c (.ok []) now) := by
  constructor <;>
    · rintro ⟨sum, s, e⟩ now
      rcases s with _ | ⟨b, inst⟩ <;> simp [checkConflicts, emptyResult]

/-- Filtering by a predicate that every `any`-relevant element satisfies does
not change `List.any`. -/
theorem any_filter_of_imp {α : Type} (p q : α → Bool)
    (h : ∀ a, q a = false → p a = false) :
    ∀ l : List α, (l.filter q).any p = l.any p := by
  intro l
  induction l with
  | nil => rfl
  | cons a rest ih =>
    cases hq : q a with
    | false => simp [List.filter_cons, hq, h a hq, ih]
    | true => simp [List.filter_cons, hq, ih]

/-- Filtering by a predicate whose failures are `filterMap`-dropped anyway
does not change `List.filterMap`. -/
theorem filterMap_filter_of_imp {α β : Type} (f : α → Option β) (q : α → Bool)
    (h : ∀ a, q a = false → f a = none) :
    ∀ l : List α, (l.filter q).filterMap f = l.filterMap f := by
  intro l
  induction l with
  | nil => rfl
  | cons a rest ih =>
    cases hq : q a with
    | false => simp [List.filter_cons, hq, h a hq, ih]
    | true =>
      cases hf : f a <;> simp [List.filter_cons, List.filterMap_cons, hq, hf, ih]

theorem slotOverlapsAny_filter_timed (ns ne : ℚ) (events : List GEvent) :
    slotOverlapsAny ns ne (events.filter isTimed) = slotOverlapsAny ns ne events := by
  refine any_filter_of_imp _ _ (fun ev hq => ?_) events
  unfold isTimed at hq
  cases h1 : ev.start.dateTime with
  | none => simp [h1]
  | some ts => rw [h1] at hq; simp at hq

theorem conflictEntryFor_allday (startTime endTime : ℚ) (ev : GEvent)
    (h : isTimed ev = false) : conflictEntryFor startTime endTime ev = none := by
  unfold isTimed at h
  cases h1 : ev.start.dateTime with
  | none => simp [conflictEntryFor, h1]
  | some ts => rw [h1] at h; simp at h

theorem genAltGo_filter_timed (s d : ℚ) (events : List GEvent) (now : ℚ) :
    ∀ (offs : List ℤ) (acc : List Suggestion),
      genAltGo s d (events.filter isTimed) now offs acc
        = genAltGo s d events now offs acc := by
  intro offs
  induction offs with
  | nil => intro acc; rfl
  | cons o rest ih =>
    intro acc
    simp only [genAltGo, slotOverlapsAny_filter_timed]
    split <;> split <;> first
      | rfl
      | exact ih _

theorem generateAlternativeTimes_filter_timed (s e : ℚ) (events : List GEvent)
    (now : ℚ) :
    generateAlternativeTimes s e (events.filter isTimed) now
      = generateAlternativeTimes s e events now := by
  simp [generateAlternativeTimes, genAltGo_filter_timed]

/-- C9.  All-day candidates and all-day events are excluded: a candidate with
no start or a start without a `T` short-circuits to the no-conflict result
for every fetch outcome (so no fetch can matter); dropping the all-day events
from the fetched list never changes the result; and every conflict entry
originates from a timed event of the fetched list. -/
theorem allday_excluded :
    (∀ (sum : String) (e : Option IsoStr) (fetched : Except Unit (List GEvent)) (now : ℚ),
      checkConflicts ⟨sum, none, e⟩ fetched now = emptyResult)
  ∧ (∀ (sum : String) (inst : ℚ) (e : Option IsoStr)
        (fetched : Except Unit (List GEvent)) (now : ℚ),
      checkConflicts ⟨sum, some ⟨false, inst⟩, e⟩ fetched now = emptyResult)
  ∧ (∀ (c : Candidate) (events : List GEvent) (now : ℚ),
      checkConflicts c (.ok (events.filter isTimed)) now
        = checkConflicts c (.ok events) now)
  ∧ (∀ (c : Candidate) (events : List GEvent) (now : ℚ) (entry : ConflictEntry),
      entry ∈ (checkConflicts c (.ok events) now).conflicts →
      ∃ ev ∈ events, isTimed ev = true ∧ entry.id = ev.id ∧ entry.summary = ev.summary) := by
  refine ⟨?_, ?_, ?_, ?_⟩
  · intro sum e fetched now
    simp [checkConflicts]
  · intro sum inst e fetched now
    simp [checkConflicts]
  · rintro ⟨sum, s, e⟩ events now
    rcases s with _ | ⟨b, inst⟩
    · simp [checkConflicts]
    · cases b
      · simp [checkConflicts]
      · simp only [checkConflicts]
        rw [filterMap_filter_of_imp _ _ (conflictEntryFor_allday _ _),
          generateAlternativeTimes_filter_timed]
  · rintro ⟨sum, s, e⟩ events now entry hmem
    rcases s with _ | ⟨b, inst⟩
    · simp [checkConflicts, emptyResult] at hmem
    · cases b
      · simp [checkConflicts, emptyResult] at hmem
      · simp only [checkConflicts, Bool.not_true, Bool.false_eq_true, if_false] at hmem
        split at hmem
        · simp [emptyResult] at hmem
        · obtain ⟨ev, hev, hf⟩ := List.mem_filterMap.mp hmem
          refine ⟨ev, hev, ?_⟩
          unfold conflictEntryFor at hf
          rcases h1 : ev.start.dateTime with _ | ts1 <;> rw [h1] at hf
          · simp at hf
          · rcases h2 : ev.stop.dateTime with _ | ts2 <;> rw [h2] at hf
            · simp at hf
            · simp only [Option.ite_none_right_eq_some, Option.some.injEq] at hf
              refine ⟨by simp [isTimed, h1], ?_⟩
              rw [← hf.2]
              exact ⟨rfl, rfl⟩

/-- Witness for C9: the conflict entry produced against a fetched list that
mixes an all-day event and a timed event originates from the timed one. -/
theorem allday_excluded_witness :
    ∃ ev ∈ [({ id := "a1", summary := "holiday",
               start := { dateTime := none, date := some 0 },
               stop := { dateTime := none, date := some 0 },
               hangoutLink := none } : GEvent),
            timedEvent "e1" "busy" 870 930],
      isTimed ev = true ∧ ("e1" : String) = ev.id ∧ ("busy" : String) = ev.summary :=
  allday_excluded.2.2.2 ⟨"x", some ⟨true, 840⟩, some ⟨true, 900⟩⟩ _ 0
    ⟨"e1", "busy", 870, 930⟩ (by decide)

/-- Unfolding of one loop iteration of `generateAlternativeTimes`. -/
theorem genAltGo_cons (s d : ℚ) (events : List GEvent) (now : ℚ) (o : ℤ)
    (rest : List ℤ) (acc : List Suggestion) :
    genAltGo s d events now (o :: rest) acc
      = if 3 ≤ (if altAccepted s d events now o = true
            then acc ++ [(⟨s + (o : ℚ), s + (o : ℚ) + d, altLabel o⟩ : Suggestion)]
            else acc).length
        then (if altAccepted s d events now o = true
            then acc ++ [(⟨s + (o : ℚ), s + (o : ℚ) + d, altLabel o⟩ : Suggestion)]
            else acc)
        else genAltGo s d events now rest
          (if altAccepted s d events now o = true
            then acc ++ [(⟨s + (o : ℚ), s + (o : ℚ) + d, altLabel o⟩ : Suggestion)]
            else acc) := rfl

theorem genAltGo_characterization (s d : ℚ) (events : List GEvent) (now : ℚ) :
    ∀ (offs : List ℤ) (acc : List Suggestion), acc.length < 3 →
      genAltGo s d events now offs acc
        = acc ++ ((offs.filter (altAccepted s d events now)).take (3 - acc.length)).map
            (fun (o : ℤ) => ⟨s + (o : ℚ), s + (o : ℚ) + d, altLabel o⟩) := by
  intro offs
  induction offs with
  | nil => intro acc _; simp [genAltGo]
  | cons o rest ih =>
    intro acc hlen
    rw [genAltGo_cons, List.filter_cons]
    by_cases hacc : altAccepted s d events now o = true
    · simp only [if_pos hacc, List.length_append, List.length_singleton]
      by_cases h3 : 3 ≤ acc.length + 1
      · rw [if_pos h3]
        have ht : 3 - acc.length = 1 := by omega
        rw [ht, List.take_succ_cons, List.take_zero, List.map_cons, List.map_nil]
      · rw [if_neg h3,
          ih _ (by simp only [List.length_append, List.length_singleton]; omega)]
        have h4 : 3 - acc.length = (3 - (acc.length + 1)) + 1 := by omega
        rw [h4, List.take_succ_cons, List.map_cons]
        simp [List.append_assoc, List.length_append, List.length_singleton]
    · simp only [if_neg hacc]
      have hnot : ¬ 3 ≤ acc.length := by omega
      rw [if_neg hnot, ih _ hlen]

/-- C8.  Alternative-slot search determinism: `generateAlternativeTimes`
equals the spec's description (probe the fixed offsets in order, reject on
overlap or a non-future start, keep the first three accepted, in probe
order); every suggestion's end is its start plus the original duration; and
on the fully-booked-except-+60 day the result is exactly one suggestion, at
+60 with the original duration and the label `60 min depois`. -/
theorem alt_search_deterministic :
    (∀ (s e : ℚ) (events : List GEvent) (now : ℚ),
      generateAlternativeTimes s e events now = altSearchSpec s (e - s) events now)
  ∧ (∀ (s e : ℚ) (events : List GEvent) (now : ℚ) (sug : Suggestion),
      sug ∈ generateAlternativeTimes s e events now → sug.endT = sug.startT + (e - s))
  ∧ (generateAlternativeTimes 1000 1060 c8Events 0
      = [{ startT := 1060, endT := 1120, label := "60 min depois" }]) := by
  have hchar : ∀ (s e : ℚ) (events : List GEvent) (now : ℚ),
      generateAlternativeTimes s e events now = altSearchSpec s (e - s) events now := by
    intro s e events now
    have h := genAltGo_characterization s (e - s) events now altOffsets [] (by simp)
    simpa [generateAlternativeTimes, altSearchSpec] using h
  refine ⟨hchar, ?_, ?_⟩
  · intro s e events now sug hsug
    rw [hchar] at hsug
    simp only [altSearchSpec, List.mem_map] at hsug
    obtain ⟨o, _, rfl⟩ := hsug
    rfl
  · decide

/-- Witness for C8: the +60 suggestion of the scenario is in the output, and
its end is its start plus the original one-hour duration. -/
theorem alt_search_deterministic_witness :
    ({ startT := 1060, endT := 1120, label := "60 min depois" } : Suggestion)
      ∈ generateAlternativeTimes 1000 1060 c8Events 0 ∧
    (1120 : ℚ) = 1060 + (1060 - 1000) :=
  ⟨by decide, alt_search_deterministic.2.1 1000 1060 c8Events 0 ⟨1060, 1120, "60 min depois"⟩ (by decide)⟩

/-- C1.  Full-refresh atomicity: if any of the three fetches of the
scheduled full refresh throws, the whole refresh aborts and no field of the
in-memory snapshot changes; in particular, with `listTasks` throwing,
`events`, `trelloCards` and `lastUpdate` keep exactly their pre-call
values. -/
theorem refreshAll_atomic :
    (∀ (cache : MemoryCache) (now : ℚ) (env : FetchEnv),
      threw env.listEvents = true ∨ threw env.listTasks = true
        ∨ threw env.listAllCards = true →
      refreshDataCache cache now env = cache)
  ∧ (∀ (cache : MemoryCache) (now : ℚ) (es : List GEvent)
      (cs : Except Unit (List Card)),
      (refreshDataCache cache now ⟨.ok es, .error (), cs⟩).events = cache.events
        ∧ (refreshDataCache cache now ⟨.ok es, .error (), cs⟩).trelloCards
            = cache.trelloCards
        ∧ (refreshDataCache cache now ⟨.ok es, .error (), cs⟩).lastUpdate
            = cache.lastUpdate) := by
  constructor
  · intro cache now env h
    rcases env with ⟨fe, ft, fc⟩
    rcases fe with e1 | es
    · simp [refreshDataCache]
    · rcases ft with e2 | ts
      · simp [refreshDataCache]
      · rcases fc with e3 | cs
        · simp [refreshDataCache]
        · simp [threw] at h
  · intro cache now es cs
    simp [refreshDataCache]

/-- Witness for C1: a concrete refresh whose `listTasks` throws leaves a
concrete snapshot unchanged. -/
theorem refreshAll_atomic_witness :
    refreshDataCache
        { events := [], tasks := [⟨"t1", "old task"⟩], trelloCards := [],
          lastUpdate := some 5 } 99
        ⟨.ok [], .error (), .ok []⟩
      = { events := [], tasks := [⟨"t1", "old task"⟩], trelloCards := [],
          lastUpdate := some 5 } :=
  refreshAll_atomic.1 _ 99 _ (Or.inr (Or.inl rfl))

/-- C5.  Targeted `invalidate('all')` is partial-success without rollback:
the domains are fetched and patched in order events, tasks, board cards; a
throw skips the remaining domains (and the `lastUpdate` advance) but every
domain patched before the failure keeps its newly fetched value. -/
theorem invalidate_partial_success :
    (∀ (cache : MemoryCache) (now : ℚ) (env : FetchEnv),
      threw env.listEvents = true →
      invalidateCache cache .all now env = cache)
  ∧ (∀ (cache : MemoryCache) (now : ℚ) (env : FetchEnv) (es : List GEvent),
      env.listEvents = .ok es → threw env.listTasks = true →
      invalidateCache cache .all now env = { cache with events := es })
  ∧ (∀ (cache : MemoryCache) (now : ℚ) (env : FetchEnv) (es : List GEvent)
      (ts : List Task),
      env.listEvents = .ok es → env.listTasks = .ok ts →
      threw env.listAllCards = true →
      invalidateCache cache .all now env
        = { cache with events := es, tasks := ts }) := by
  refine ⟨?_, ?_, ?_⟩
  · intro cache now env h
    rcases env with ⟨fe, ft, fc⟩
    rcases fe with e1 | es
    · simp [invalidateCache]
    · simp [threw] at h
  · intro cache now env es h1 h2
    rcases env with ⟨fe, ft, fc⟩
    cases h1
    rcases ft with e2 | ts
    · simp [invalidateCache, invalidateTasksStep]
    · simp [threw] at h2
  · intro cache now env es ts h1 h2 h3
    rcases env with ⟨fe, ft, fc⟩
    cases h1
    cases h2
    rcases fc with e3 | cs
    · simp [invalidateCache, invalidateTasksStep, invalidateTrelloStep]
    · simp [threw] at h3

/-- Witness for C5: with events fetching `[]` and tasks throwing, a concrete
`invalidate('all')` keeps tasks/cards/lastUpdate and patches only events. -/
theorem invalidate_partial_success_witness :
    invalidateCache
        { events := [timedEvent "e0" "old" 0 1], tasks := [⟨"t1", "old task"⟩],
          trelloCards := [], lastUpdate := some 5 }
        .all 99 ⟨.ok [], .error (), .ok []⟩
      = { events := [], tasks := [⟨"t1", "old task"⟩], trelloCards := [],
          lastUpdate := some 5 } :=
  invalidate_partial_success.2.1 _ 99 _ [] rfl rfl

/-- C6.  Targeted patch isolation: a successful single-domain invalidate
replaces only that domain's field and `lastUpdate`, leaving the other two
snapshot fields exactly equal to their pre-call values; in particular for the
board-cards domain. -/
theorem targeted_invalidate_isolation :
    (∀ (cache : MemoryCache) (now : ℚ) (env : FetchEnv) (cs : List Card),
      env.listAllCards = .ok cs →
      invalidateCache cache .trello now env
        = { cache with trelloCards := cs, lastUpdate := some now })
  ∧ (∀ (cache : MemoryCache) (now : ℚ) (env : FetchEnv) (es : List GEvent),
      env.listEvents = .ok es →
      invalidateCache cache .events now env
        = { cache with events := es, lastUpdate := some now })
  ∧ (∀ (cache : MemoryCache) (now : ℚ) (env : FetchEnv) (ts : List Task),
      env.listTasks = .ok ts →
      invalidateCache cache .tasks now env
        = { cache with tasks := ts, lastUpdate := some now }) := by
  refine ⟨?_, ?_, ?_⟩
  · intro cache now env cs h
    rcases env with ⟨fe, ft, fc⟩
    cases h
    simp [invalidateCache, invalidateTasksStep, invalidateTrelloStep, invalidateFinish]
  · intro cache now env es h
    rcases env with ⟨fe, ft, fc⟩
    cases h
    simp [invalidateCache, invalidateTasksStep, invalidateTrelloStep, invalidateFinish]
  · intro cache now env ts h
    rcases env with ⟨fe, ft, fc⟩
    cases h
    simp [invalidateCache, invalidateTasksStep, invalidateTrelloStep, invalidateFinish]

/-- Witness for C6: a concrete board-cards invalidate changes only
`trelloCards` and `lastUpdate`, with `events` and `tasks` untouched. -/
theorem targeted_invalidate_isolation_witness :
    invalidateCache
        { events := [timedEvent "e0" "old" 0 1], tasks := [⟨"t1", "old task"⟩],
          trelloCards := [], lastUpdate := some 5 }
        .trello 99 ⟨.error (), .error (), .ok [⟨"c1", "card", some "A Fazer", "u"⟩]⟩
      = { events := [timedEvent "e0" "old" 0 1], tasks := [⟨"t1", "old task"⟩],
          trelloCards := [⟨"c1", "card", some "A Fazer", "u"⟩], lastUpdate := some 99 } :=
  targeted_invalidate_isolation.1 _ 99 _ _ rfl

/-- C7.  Staleness on load: a successfully parsed snapshot triggers the
forced refresh exactly when `now - lastUpdate` exceeds two hours (120
minutes); an age of 121 minutes triggers it, an age of 60 minutes does
not. -/
theorem staleness_on_load :
    (∀ (current : MemoryCache) (d : DiskCache) (lu now : ℚ),
      d.lastUpdate = some lu →
      ((loadCacheFromDisk current (some (.ok d)) now).2 = true ↔ now - lu > 120))
  ∧ (∀ (current : MemoryCache) (d : DiskCache) (lu now : ℚ),
      d.lastUpdate = some lu → now - lu = 121 →
      (loadCacheFromDisk current (some (.ok d)) now).2 = true)
  ∧ (∀ (current : MemoryCache) (d : DiskCache) (lu now : ℚ),
      d.lastUpdate = some lu → now - lu = 60 →
      (loadCacheFromDisk current (some (.ok d)) now).2 = false) := by
  have key : ∀ (current : MemoryCache) (d : DiskCache) (lu now : ℚ),
      d.lastUpdate = some lu →
      ((loadCacheFromDisk current (some (.ok d)) now).2 = true ↔ now - lu > 120) := by
    intro current d lu now h
    simp only [loadCacheFromDisk, staleAfterLoad, h, decide_eq_true_eq, gt_iff_lt,
      lt_div_iff₀ (show (0 : ℚ) < 60 by norm_num)]
    constructor <;> intro h2 <;> linarith
  refine ⟨key, ?_, ?_⟩
  · intro current d lu now h h121
    rw [key current d lu now h, h121]
    norm_num
  · intro current d lu now h h60
    rw [← Bool.not_eq_true, key current d lu now h, h60]
    norm_num

/-- Witness for C7: ages of 121 and 60 minutes on a concrete snapshot. -/
theorem staleness_on_load_witness :
    ((loadCacheFromDisk
        { events := [], tasks := [], trelloCards := [], lastUpdate := none }
        (some (.ok { events := [], tasks := [], trelloCards := none,
                     lastUpdate := some 0 })) 121).2 = true)
  ∧ ((loadCacheFromDisk
        { events := [], tasks := [], trelloCards := [], lastUpdate := none }
        (some (.ok { events := [], tasks := [], trelloCards := none,
                     lastUpdate := some 0 })) 60).2 = false) :=
  ⟨staleness_on_load.2.1 _ _ 0 121 rfl (by norm_num),
   staleness_on_load.2.2 _ _ 0 60 rfl (by norm_num)⟩

theorem remindersFor_append (a b : List Reminder) (eid : String) :
    remindersFor (a ++ b) eid = remindersFor a eid + remindersFor b eid := by
  simp [remindersFor, List.filter_append]

/-- One loop iteration of the scan can only move weight from the "still
unnotified" flag to the reminder count, never create new weight. -/
theorem scanStep_measure (now : ℚ) (eid : String) (acc : List String × List Reminder)
    (event : GEvent) :
    remindersFor (scanStep now acc event).2 eid + notifFlag (scanStep now acc event).1 eid
      ≤ remindersFor acc.2 eid + notifFlag acc.1 eid := by
  unfold scanStep
  cases event.start.dateTime with
  | none => exact le_refl _
  | some ts =>
    dsimp only
    split
    case isTrue h =>
      have hc : acc.1.contains event.id = false := by
        have h2 := h
        simp only [Bool.and_eq_true] at h2
        simpa using h2.2
      have hmem : event.id ∉ acc.1 := by simpa using hc
      dsimp only
      rw [remindersFor_append]
      by_cases heq : event.id = eid
      · subst heq
        have h1 : remindersFor [{ eventId := event.id, summary := event.summary }] event.id
            = 1 := by simp [remindersFor]
        have h2 : notifFlag (event.id :: acc.1) event.id = 0 := by
          simp [notifFlag]
        have h3 : notifFlag acc.1 event.id = 1 := by
          simp [notifFlag, hmem]
        omega
      · have h1 : remindersFor [{ eventId := event.id, summary := event.summary }] eid
            = 0 := by simp [remindersFor, heq]
        have h2 : notifFlag (event.id :: acc.1) eid = notifFlag acc.1 eid := by
          have hne : ¬ eid = event.id := fun hx => heq hx.symm
          simp [notifFlag, List.mem_cons, hne]
        omega
    case isFalse h => exact le_refl _

theorem tickFold_measure (now : ℚ) (eid : String) :
    ∀ (events : List GEvent) (acc : List String × List Reminder),
      remindersFor (events.foldl (scanStep now) acc).2 eid
          + notifFlag (events.foldl (scanStep now) acc).1 eid
        ≤ remindersFor acc.2 eid + notifFlag acc.1 eid := by
  intro events
  induction events with
  | nil => intro acc; exact le_refl _
  | cons ev rest ih =>
    intro acc
    exact le_trans (ih (scanStep now acc ev)) (scanStep_measure now eid acc ev)

theorem minuteScanTick_measure (events : List GEvent) (notified : List String)
    (now : ℚ) (eid : String) :
    remindersFor (minuteScanTick events notified now).2 eid
        + notifFlag (minuteScanTick events notified now).1 eid
      ≤ notifFlag notified eid := by
  have h := tickFold_measure now eid events (notified, [])
  simpa [minuteScanTick, remindersFor] using h

theorem runTicks_measure (events : List GEvent) (eid : String) :
    ∀ (times : List ℚ) (acc : List String × List Reminder),
      remindersFor (times.foldl (ticksStep events) acc).2 eid
          + notifFlag (times.foldl (ticksStep events) acc).1 eid
        ≤ remindersFor acc.2 eid + notifFlag acc.1 eid := by
  intro times
  induction times with
  | nil => intro acc; exact le_refl _
  | cons t rest ih =>
    intro acc
    refine le_trans (ih (ticksStep events acc t)) ?_
    unfold ticksStep
    dsimp only
    rw [remindersFor_append]
    have h := minuteScanTick_measure events acc.1 t eid
    omega

/-- C2.  At-most-once reminder: over any sequence of per-minute scan ticks
against an unchanged event cache, at most one reminder is ever sent for any
event id; and in the concrete two-adjacent-ticks scenario (start at minute
1000, ticks 15.3 and 14.2 minutes before it, both inside `[14, 15.5]`)
exactly one reminder is sent. -/
theorem reminder_at_most_once :
    (∀ (events : List GEvent) (notified : List String) (times : List ℚ) (eid : String),
      remindersFor (runTicks events notified times).2 eid ≤ 1)
  ∧ remindersFor
      (runTicks [timedEvent "ev1" "Meeting" 1000 1060] []
        [1000 - 153/10, 1000 - 142/10]).2 "ev1" = 1 := by
  constructor
  · intro events notified times eid
    have h := runTicks_measure events eid times (notified, [])
    have h0 : remindersFor (notified, ([] : List Reminder)).2 eid = 0 := rfl
    have hflag : notifFlag (notified, ([] : List Reminder)).1 eid ≤ 1 := by
      show notifFlag notified eid ≤ 1
      unfold notifFlag; split <;> omega
    unfold runTicks
    omega
  · decide

/-- Counterexample to C10: with six pending tasks (resp. six to-do cards)
the morning digest shows all six, but the 14:00 digest shows only five —
the afternoon digest caps tasks and cards at 5, not at the claimed
`maxTasksInSummary`/`maxCardsInSummary` default of 10. -/
theorem afternoon_digest_cap_counterexample :
    morningDigestTasks sixTasks = sixTasks
      ∧ afternoonDigestTasks sixTasks ≠ morningDigestTasks sixTasks
      ∧ (afternoonDigestTasks sixTasks).length = 5
      ∧ morningDigestCards sixCards = sixCards
      ∧ afternoonDigestCards sixCards ≠ morningDigestCards sixCards
      ∧ (afternoonDigestCards sixCards).length = 5 := by
  refine ⟨by decide, by decide, by decide, ?_, ?_, ?_⟩
  · decide
  · decide
  · decide

/-- C10 (amended).  The 14:00 digest's event section contains exactly the
events that are all-day today or timed with start strictly after `now`, and
it applies the same case-insensitive to-do list-name filter to board cards
as the morning digest; but it caps tasks and to-do cards at 5, while the
morning digest caps both at 10. -/
theorem afternoon_digest_composition :
    (∀ (events : List GEvent) (now : ℚ) (today : ℤ) (e : GEvent),
      e ∈ remainingEvents events now today
        ↔ e ∈ events ∧ afternoonEventSpec now today e)
  ∧ (∀ c : Card, isTodoCard c = true ↔ todoCardSpec c)
  ∧ (∀ tasks : List Task, afternoonDigestTasks tasks = tasks.take 5)
  ∧ (∀ cards : List Card, afternoonDigestCards cards = (cards.filter isTodoCard).take 5)
  ∧ (∀ tasks : List Task, morningDigestTasks tasks = tasks.take 10)
  ∧ (∀ cards : List Card, morningDigestCards cards = (cards.filter isTodoCard).take 10) := by
  refine ⟨?_, ?_, fun _ => rfl, fun _ => rfl, fun _ => rfl, fun _ => rfl⟩
  · intro events now today e
    rw [remainingEvents, List.mem_filter]
    refine and_congr_right fun _ => ?_
    cases hd : e.start.date with
    | some d => simp [afternoonEventSpec, hd]
    | none =>
      cases hdt : e.start.dateTime with
      | none => simp [afternoonEventSpec, hd, hdt]
      | some ts => simp [afternoonEventSpec, hd, hdt]
  · intro c
    cases hn : c.listName with
    | none => simp [isTodoCard, todoCardSpec, hn]
    | some n => simp [isTodoCard, todoCardSpec, hn, todoMarkers, or_assoc]
